import Mathlib

/-!
Verification of the application step loop and its collaborators for the
jobagent repository. The definitions below are a shallow embedding of

  * `apply_to_job` in `src/agent/controller.py` (the main form-step loop
    with stall detection and cloud escalation),
  * `CloudLLM.analyze` in `src/models/cloud_llm.py`, and
  * `BrowserDriver.execute_actions` in `src/browser/playwright_driver.py`.

Stateful Python code becomes explicit state passing; Python exceptions
become `Except Unit` values; collaborator behaviour (browser, local model,
cloud model) is passed in as an environment of functions indexed by the
iteration number, so that theorems quantify over every collaborator
behaviour.
-/

namespace JobAgent

/-! ## Data model -/

/-- Page snapshot as used by the loop in `controller.py`. The loop reads
only the `"text"` entry of the snapshot dictionary
(`snapshot.get("text", "")`); the remaining entries (html, buttons,
inputs) reach only the model calls, which are environment
functions here. -/
structure Snapshot where
  text : String
deriving Repr, DecidableEq

/-- An action dictionary as produced by the language models and consumed
by `BrowserDriver.execute_actions`. Each field models `action.get(key)`;
`none` models an absent key (Python `None`). -/
structure Action where
  action : Option String
  id : Option String
  value : Option String
  file : Option String
deriving Repr, DecidableEq

/-- Result of a model `analyze` call as read by the loop:
`result.get("actions", [])` and `result.get("is_final_step", False)`. -/
structure Decision where
  actions : List Action
  is_final_step : Bool
deriving Repr, DecidableEq

/-- Loop-local state of `apply_to_job`: `step_count`, `stall_count`, and
`last_snapshot_hash` (`None` before the first successful snapshot). -/
structure LoopState where
  step_count : Nat
  stall_count : Nat
  last_hash : Option Nat
deriving Repr, DecidableEq

/-- The four terminal outcomes named by the specification. The code in
`controller.py` distinguishes them only by which exit path leaves the
loop (which message is printed); the constructors tag those exit paths:
`Aborted` is the snapshot-exception `break`, `Stalled` the
no-cloud-recovery `break`, `Completed` the `is_final` `break` (reached
both from the decider flag and from the success-keyword heuristic), and
`Exhausted` covers the no-actions-no-keyword `break` and running out of
`max_steps`. -/
inductive ApplicationResult where
  | Completed
  | Exhausted
  | Stalled
  | Aborted
deriving Repr, DecidableEq

/-- Outcome of one loop iteration: exit the loop with a result, continue
with the next iteration, or let a Python exception propagate. -/
inductive StepOut where
  | exit (r : ApplicationResult)
  | next
  | raise
deriving Repr, DecidableEq

/-- Collaborator environment of one `apply_to_job` attempt. Functions
take the current `step_count` so that a collaborator may behave
differently on different calls, exactly as a live browser or model
does. `Except.error ()` models the call raising an exception. -/
structure Env where
  hash : String → Nat
  observe : Nat → Except Unit Snapshot
  localAnalyze : Nat → Snapshot → Except Unit Decision
  cloudAnalyze : Option (Nat → Snapshot → Except Unit Decision)
  execActions : Nat → List Action → Except Unit Unit

/-! ## Substring search used by the completion heuristic -/

/-- Whether the second list is a prefix of the first list of characters. -/
def charsMatch : List Char → List Char → Bool
  | [], _ => true
  | _ :: _, [] => false
  | n :: ns, h :: hs => n == h && charsMatch ns hs

/-- Whether the needle occurs somewhere inside the haystack, the Python
`needle in haystack` test on strings. -/
def charsContain (hay needle : List Char) : Bool :=
  match hay with
  | [] => needle.isEmpty
  | _ :: t => charsMatch needle hay || charsContain t needle

/-- Python `needle in hay` for strings. -/
def strContains (hay needle : String) : Bool :=
  charsContain hay.toList needle.toList

/-- ASCII lowering of one character; models Python `str.lower` on the
ASCII range, which covers the completion keywords below. -/
def lowerChar (c : Char) : Char :=
  if 65 ≤ c.toNat && c.toNat ≤ 90 then Char.ofNat (c.toNat + 32) else c

/-- Lowercase a whole string character by character. -/
def strLower (s : String) : String :=
  ⟨s.toList.map lowerChar⟩

/-- The completion lexicon of `controller.py` (lines 177-180). -/
def completionKeywords : List String :=
  ["application submitted", "thank you", "success",
   "we have received", "application complete"]

/-- The success-page check: lowercase the page text and look for any
completion keyword, `any(keyword in page_text for keyword in [...])`. -/
def keywordMatch (text : String) : Bool :=
  completionKeywords.any (fun k => strContains (strLower text) k)

/-! ## The application step loop (`apply_to_job`, lines 120-196) -/

/-- The part of the loop body after stall handling (lines 153-193 of
`controller.py`): call the local model, execute any proposed actions,
apply the no-actions heuristic, and test `is_final`. This region only
reads the loop state, so the state is returned unchanged. -/
def afterStallOut (env : Env) (s : LoopState) (snap : Snapshot) : StepOut :=
  match env.localAnalyze s.step_count snap with
  | .error _ => .raise
  | .ok res =>
    if res.actions.isEmpty then
      if 3 < s.step_count then
        if keywordMatch snap.text then .exit .Completed
        else .exit .Exhausted
      else if res.is_final_step then .exit .Completed
      else .next
    else
      match env.execActions s.step_count res.actions with
      | .error _ => .raise
      | .ok _ =>
        if res.is_final_step then .exit .Completed
        else .next

/-- State-passing form of `afterStallOut`. -/
def afterStall (env : Env) (s : LoopState) (snap : Snapshot) :
    StepOut × LoopState :=
  (afterStallOut env s snap, s)

/-- One iteration of the `while step_count < max_steps` loop (lines
120-193): increment `step_count`, capture the snapshot (a snapshot
exception exits with `Aborted`), run stall detection, and on a stall at
threshold either call the cloud model (whose returned value the code
immediately overwrites with the local-model result and whose exception
would propagate) or exit with `Stalled`; below the threshold sleep and
continue; otherwise fall through to the analyze/execute phase. -/
def iterate (env : Env) (s : LoopState) : StepOut × LoopState :=
  let step := s.step_count + 1
  match env.observe step with
  | .error _ => (.exit .Aborted, ⟨step, s.stall_count, s.last_hash⟩)
  | .ok snap =>
    let fp := env.hash snap.text
    if s.last_hash = some fp then
      let s1 : LoopState := ⟨step, s.stall_count + 1, s.last_hash⟩
      if 3 ≤ s.stall_count + 1 then
        match env.cloudAnalyze with
        | some cloud =>
          match cloud step snap with
          | .error _ => (.raise, s1)
          | .ok _ => afterStall env s1 snap
        | none => (.exit .Stalled, s1)
      else (.next, s1)
    else afterStall env ⟨step, 0, some fp⟩ snap

/-- The loop itself, by fuel: `fuel` is `max_steps - step_count`, so the
`while step_count < max_steps` guard failing is the fuel running out,
which the code reports as reaching the maximum number of steps
(`Exhausted`). -/
def applyLoopGo (env : Env) : Nat → LoopState → Except Unit (ApplicationResult × LoopState)
  | 0, s => .ok (.Exhausted, s)
  | fuel + 1, s =>
    match iterate env s with
    | (.exit r, s2) => .ok (r, s2)
    | (.raise, _) => .error ()
    | (.next, s2) => applyLoopGo env fuel s2

/-- The step budget, `max_steps = 10` (prevent infinite loops). -/
def max_steps : Nat := 10

/-- The whole application loop starting from the initial state
(`step_count = 0`, `stall_count = 0`, `last_snapshot_hash = None`). -/
def applyLoop (env : Env) : Except Unit (ApplicationResult × LoopState) :=
  applyLoopGo env max_steps ⟨0, 0, none⟩

/-- Setup phase of `apply_to_job` before the loop: profile loading,
page loading, locating and clicking the Easy Apply button. -/
structure SetupEnv where
  profileOk : Bool
  loadPageOk : Bool
  easyApplyFound : Bool
  clickOk : Bool
deriving Repr, DecidableEq

/-- Full `apply_to_job` boundary. A falsy profile, a missing Easy Apply
button, and a failing Easy Apply click each `return` early with no
result (`Option.none`; the Python function always returns `None`). The
body sits in `try: ... except Exception: print(...); raise`, so an
exception from `browser.load_page`, from either model, or from
`execute_actions` is re-raised past the boundary: `Except.error`
passes through unchanged. -/
def apply_to_job (setup : SetupEnv) (env : Env) :
    Except Unit (Option (ApplicationResult × LoopState)) :=
  if !setup.profileOk then .ok none
  else if !setup.loadPageOk then .error ()
  else if !setup.easyApplyFound then .ok none
  else if !setup.clickOk then .ok none
  else
    match applyLoop env with
    | .error e => .error e
    | .ok rs => .ok (some rs)

/-! ## `BrowserDriver.execute_actions` (`playwright_driver.py`, lines 160-215) -/

/-- The page as seen at execution time: how many elements each of the
three query-selector calls returns, and which element interactions raise
(Playwright click/fill/set_input_files can raise, e.g. when the target
is not interactable). Note that upload queries a different element list
(`input[type=file]`) than fill (`input, textarea, select`). -/
structure PageEnv where
  nButtons : Nat
  nInputs : Nat
  nFileInputs : Nat
  clickRaises : Nat → Bool
  fillRaises : Nat → Bool
  uploadRaises : Nat → Bool

/-- One entry of the `results` list built by `execute_actions`. The
Python `"error"` entries additionally carry the exception text, which is
not modelled (modelled exceptions carry no data). -/
structure Outcome where
  action : Option String
  status : String
  value : Option String
  file : Option String
deriving Repr, DecidableEq

/-- Python `str.startswith(pre)`: the characters of `pre` lead `s`. -/
def strStartsWith (s pre : String) : Bool :=
  charsMatch pre.toList s.toList

/-- Python `str.split(sep)` for a one-character separator: split on
every occurrence, keeping empty components. -/
def splitOnChar (sep : Char) : List Char → List (List Char)
  | [] => [[]]
  | c :: cs =>
    if c == sep then [] :: splitOnChar sep cs
    else
      match splitOnChar sep cs with
      | [] => [[c]]
      | p :: ps => (c :: p) :: ps

/-- Digit value of a character, `none` for a non-digit. -/
def charDigit (c : Char) : Option Nat :=
  if 48 ≤ c.toNat && c.toNat ≤ 57 then some (c.toNat - 48) else none

/-- Accumulate a decimal number over the remaining characters. -/
def natFromCharsAux : List Char → Nat → Option Nat
  | [], acc => some acc
  | c :: cs, acc =>
    match charDigit c with
    | some d => natFromCharsAux cs (acc * 10 + d)
    | none => none

/-- A nonempty all-digit character list as a number. -/
def natFromChars : List Char → Option Nat
  | [] => none
  | c :: cs => natFromCharsAux (c :: cs) 0

/-- Python `int(text)` on plain decimal text with an optional leading
minus sign; `none` models the `ValueError` raised on anything else. -/
def intFromChars : List Char → Option Int
  | '-' :: rest => (natFromChars rest).map (fun v => -(v : Int))
  | cs => (natFromChars cs).map (fun v => (v : Int))

/-- Index extraction, `int(element_id.split("_")[1])`: take the second
underscore-separated component and read it as an integer; `none` models the `ValueError` of a
failed conversion (and the only way `[1]` itself could be missing is an
id without an underscore, which the startswith guards already exclude). -/
def parseIdx (s : String) : Option Int :=
  match (splitOnChar '_' s.toList)[1]? with
  | some cs => intFromChars cs
  | none => none

/-- Resolve a Python list index against a list of length `n` after the
code has already checked `i < n`: nonnegative indices index directly,
negative indices count from the end, and a too-negative index is the
`IndexError` case (`none`). -/
def resolveNeg (n : Nat) (i : Int) : Option Nat :=
  if 0 ≤ i then some i.toNat
  else if -i ≤ (n : Int) then some (n - (-i).toNat)
  else none

/-- Shared shape of the click / fill / upload branches of the per-action
loop body: check the id prefix (a mismatch falls out of the branch with
no result entry at all), parse the index, compare with the element count
(`element_not_found` when out of range), resolve the index, and interact (an
interaction exception becomes an `"error"` entry). Returns the status
string of the entry to append, or `none` when no entry is appended. -/
def execTarget (pre : String) (n : Nat) (raises : Nat → Bool)
    (id? : Option String) : Option String :=
  match id? with
  | none => some "error"
  | some s =>
    if strStartsWith s pre then
      match parseIdx s with
      | none => some "error"
      | some i =>
        if i < (n : Int) then
          match resolveNeg n i with
          | none => some "error"
          | some j => if raises j then some "error" else some "success"
        else some "element_not_found"
    else none

/-- Processing of one action of the list (the body of the `for action in
actions` loop), following the `if/elif/elif/else` chain on the action
type. A `none` id with a click/fill/upload type models the
`AttributeError` of `None.startswith`, caught by the per-action handler
as an `"error"` entry; a type that is none of the three (including an
absent `"action"` key) appends an `unknown_action` entry; a prefix
mismatch appends nothing. Successful fill entries echo the value
(`action.get("value", "")`), successful uploads the file path. -/
def execOne (env : PageEnv) (a : Action) : Option Outcome :=
  if a.action = some "click" then
    (execTarget "btn_" env.nButtons env.clickRaises a.id).map
      (fun st => ⟨some "click", st, none, none⟩)
  else if a.action = some "fill" then
    (execTarget "input_" env.nInputs env.fillRaises a.id).map
      (fun st => ⟨some "fill", st,
        if st = "success" then some (a.value.getD "") else none, none⟩)
  else if a.action = some "upload" then
    (execTarget "input_" env.nFileInputs env.uploadRaises a.id).map
      (fun st => ⟨some "upload", st, none,
        if st = "success" then some (a.file.getD "") else none⟩)
  else some ⟨a.action, "unknown_action", none, none⟩

/-- The dictionary returned by `execute_actions`. -/
structure ExecResult where
  status : String
  results : List Outcome
deriving Repr, DecidableEq

/-- The dictionary-building body of `execute_actions`: process every
action in order, collecting the
appended entries, and return `{"status": "completed", "results": ...}`.
The per-action `try` means no action can abort the loop. -/
def execute_actions (env : PageEnv) (actions : List Action) : ExecResult :=
  ⟨"completed", actions.filterMap (execOne env)⟩

/-- Conditions under which one typed branch records a failure entry for
its action: the id is missing entirely (the attribute access raises),
or the id prefix matches and then the index text fails to convert, the
index is out of range (the target element is gone), index resolution
raises, or the element interaction itself raises. A prefix mismatch is
not a recorded failure (the action is skipped silently). -/
def execTargetFailB (pre : String) (n : Nat) (raises : Nat → Bool)
    (id? : Option String) : Bool :=
  match id? with
  | none => true
  | some s =>
    if strStartsWith s pre then
      match parseIdx s with
      | none => true
      | some i =>
        if i < (n : Int) then
          match resolveNeg n i with
          | none => true
          | some j => raises j
        else true
    else false

/-- Whether `execute_actions` records a failure entry for this action:
the action reaches one of the three typed branches and fails there in
one of the ways listed at `execTargetFailB`. -/
def execFailureB (env : PageEnv) (a : Action) : Bool :=
  if a.action = some "click" then
    execTargetFailB "btn_" env.nButtons env.clickRaises a.id
  else if a.action = some "fill" then
    execTargetFailB "input_" env.nInputs env.fillRaises a.id
  else if a.action = some "upload" then
    execTargetFailB "input_" env.nFileInputs env.uploadRaises a.id
  else false

/-! ## `CloudLLM.analyze` (`cloud_llm.py`, lines 43-72) -/

/-- JSON values, the possible outputs of `json.loads`. -/
inductive Json where
  | null
  | bool (b : Bool)
  | num (n : Int)
  | str (s : String)
  | arr (xs : List Json)
  | obj (fields : List (String × Json))

/-- The fallback value `{"actions": [], "is_final_step": False}`. -/
def emptyActionResult : Json :=
  .obj [("actions", .arr []), ("is_final_step", .bool false)]

/-- External behaviour consumed by `CloudLLM.analyze`: prompt building
(string formatting over the snapshot, which can raise on malformed
snapshot entries), the `messages.create` network call yielding the
response text, `json.loads` (`none` models `JSONDecodeError`), and the
`re.search` brace extraction yielding the matched substring. -/
structure CloudEnv where
  buildRecoveryPrompt : Snapshot → Except Unit String
  buildFormPrompt : Snapshot → List (String × String) → Except Unit String
  callModel : String → Except Unit String
  jsonParse : String → Option Json
  extract : String → Option String

namespace CloudLLM

/-- Embedding of `CloudLLM.analyze`. The whole body sits in a `try` whose handler
returns `{"actions": [], "is_final_step": False}`, so prompt-building
and network failures fall back to the empty result; a `JSONDecodeError`
from the first `json.loads` is additionally caught by an inner handler
that attempts brace extraction, where a failed second `json.loads`
propagates to the outer handler and a missing match returns the empty
result directly. -/
def analyze (env : CloudEnv) (snapshot : Snapshot)
    (profile : Option (List (String × String))) (mode : String) : Json :=
  let prompt? :=
    if mode = "recovery" then env.buildRecoveryPrompt snapshot
    else env.buildFormPrompt snapshot (profile.getD [])
  match prompt? with
  | .error _ => emptyActionResult
  | .ok prompt =>
    match env.callModel prompt with
    | .error _ => emptyActionResult
    | .ok text =>
      match env.jsonParse text with
      | some j => j
      | none =>
        match env.extract text with
        | some sub =>
          match env.jsonParse sub with
          | some j => j
          | none => emptyActionResult
        | none => emptyActionResult

end CloudLLM

end JobAgent

deriving instance DecidableEq for Except

namespace JobAgent

/-! ## Helper predicates and concrete collaborator behaviours -/

/-- Whether an `Except` value is a success (the call did not raise). -/
def isOkE {α : Type} : Except Unit α → Bool
  | .ok _ => true
  | .error _ => false

/-- All collaborators that the loop calls below the snapshot capture
return without raising: the local model, the cloud model (when
configured), and the action executor. The snapshot capture is deliberately
not constrained: its failures are converted by the loop, not raised. -/
def collaboratorsOk (env : Env) : Prop :=
  (∀ n snap, isOkE (env.localAnalyze n snap) = true) ∧
  (∀ c n snap, env.cloudAnalyze = some c → isOkE (c n snap) = true) ∧
  (∀ n acts, isOkE (env.execActions n acts) = true)

/-- A click on the first button, the shape of action the models emit. -/
def clickAction : Action := ⟨some "click", some "btn_0", none, none⟩

/-- Setup phase with nothing failing. -/
def setupAllOk : SetupEnv := ⟨true, true, true, true⟩

/-- A run whose page never changes, whose local model proposes nothing,
and whose cloud model proposes a click on every call. -/
def envEscalationDiscard : Env :=
  { hash := String.length
  , observe := fun _ => .ok ⟨"same text"⟩
  , localAnalyze := fun _ _ => .ok ⟨[], false⟩
  , cloudAnalyze := some (fun _ _ => .ok ⟨[clickAction], false⟩)
  , execActions := fun _ _ => .ok () }

/-- A run whose page never changes, whose local model keeps proposing a
click, and whose cloud model raises on its call at iteration 5 only: any
cloud call at iteration 5 is thereby made observable in the result. -/
def envReEscalate : Env :=
  { hash := String.length
  , observe := fun _ => .ok ⟨"same text"⟩
  , localAnalyze := fun _ _ => .ok ⟨[clickAction], false⟩
  , cloudAnalyze := some (fun n _ => if n == 5 then .error () else .ok ⟨[], false⟩)
  , execActions := fun _ _ => .ok () }

/-- A run whose local model raises on its first call. -/
def envDeciderRaise : Env :=
  { hash := String.length
  , observe := fun _ => .ok ⟨"page"⟩
  , localAnalyze := fun _ _ => .error ()
  , cloudAnalyze := none
  , execActions := fun _ _ => .ok () }

/-- A fully benign run: the local model immediately reports the final
step with no actions. -/
def envBenign : Env :=
  { hash := String.length
  , observe := fun _ => .ok ⟨"page"⟩
  , localAnalyze := fun _ _ => .ok ⟨[], true⟩
  , cloudAnalyze := none
  , execActions := fun _ _ => .ok () }

/-- A run whose local model reports the final step with an empty action
list already on iteration 1. -/
def envEarlyFinal : Env :=
  { hash := String.length
  , observe := fun _ => .ok ⟨"first"⟩
  , localAnalyze := fun _ _ => .ok ⟨[], true⟩
  , cloudAnalyze := none
  , execActions := fun _ _ => .ok () }

/-- A run whose local model proposes nothing and does not report a final
step. -/
def envEmptyContinue : Env :=
  { hash := String.length
  , observe := fun _ => .ok ⟨"page"⟩
  , localAnalyze := fun _ _ => .ok ⟨[], false⟩
  , cloudAnalyze := none
  , execActions := fun _ _ => .ok () }

/-- A stalled run without a cloud model whose local model would raise if
it were ever called. -/
def envStallPoisonLocal : Env :=
  { hash := String.length
  , observe := fun _ => .ok ⟨"page"⟩
  , localAnalyze := fun _ _ => .error ()
  , cloudAnalyze := none
  , execActions := fun _ _ => .ok () }

/-- A run whose snapshot capture succeeds on iteration 1 and raises on
every later iteration. -/
def envObserveFailsAt2 : Env :=
  { hash := String.length
  , observe := fun n => if n == 1 then .ok ⟨"page"⟩ else .error ()
  , localAnalyze := fun _ _ => .ok ⟨[clickAction], false⟩
  , cloudAnalyze := none
  , execActions := fun _ _ => .ok () }

/-- A page with one button, one input and one file input where no
interaction raises. -/
def pageEnvReady : PageEnv :=
  ⟨1, 1, 1, fun _ => false, fun _ => false, fun _ => false⟩

/-- A page whose buttons have all disappeared by execution time. -/
def pageEnvNoButtons : PageEnv :=
  ⟨0, 1, 1, fun _ => false, fun _ => false, fun _ => false⟩

/-- A fill of the first input. -/
def fillAction : Action := ⟨some "fill", some "input_0", some "hello", none⟩

/-- A click whose id does not carry the `btn_` naming scheme. -/
def skipClickAction : Action := ⟨some "click", some "x_9", none, none⟩

/-! ## Loop lemmas -/

lemma afterStall_snd (env : Env) (s : LoopState) (snap : Snapshot) :
    (afterStall env s snap).2 = s := rfl

lemma iterate_snd_ok (env : Env) (s : LoopState) (snap : Snapshot)
    (hobs : env.observe (s.step_count + 1) = .ok snap) :
    (iterate env s).2 =
      if s.last_hash = some (env.hash snap.text)
      then ⟨s.step_count + 1, s.stall_count + 1, s.last_hash⟩
      else ⟨s.step_count + 1, 0, some (env.hash snap.text)⟩ := by
  unfold iterate
  simp only [hobs]
  by_cases heq : s.last_hash = some (env.hash snap.text)
  · rw [if_pos heq, if_pos heq]
    split
    · split
      · split <;> rfl
      · rfl
    · rfl
  · rw [if_neg heq, if_neg heq]
    rfl

lemma iterate_snd_err (env : Env) (s : LoopState)
    (hobs : env.observe (s.step_count + 1) = .error ()) :
    (iterate env s).2 = ⟨s.step_count + 1, s.stall_count, s.last_hash⟩ := by
  unfold iterate
  simp only [hobs]

lemma iterate_step_count (env : Env) (s : LoopState) :
    (iterate env s).2.step_count = s.step_count + 1 := by
  cases hobs : env.observe (s.step_count + 1) with
  | error e => cases e; rw [iterate_snd_err env s hobs]
  | ok snap =>
    rw [iterate_snd_ok env s snap hobs]
    split <;> rfl

lemma applyLoopGo_succ (env : Env) (fuel : Nat) (s : LoopState) :
    applyLoopGo env (fuel + 1) s =
      (match iterate env s with
       | (.exit r, s2) => .ok (r, s2)
       | (.raise, _) => .error ()
       | (.next, s2) => applyLoopGo env fuel s2) := rfl

lemma afterStallOut_no_raise (env : Env) (h : collaboratorsOk env)
    (s : LoopState) (snap : Snapshot) :
    afterStallOut env s snap ≠ .raise := by
  unfold afterStallOut
  cases hl : env.localAnalyze s.step_count snap with
  | error e =>
    have hv := h.1 s.step_count snap
    rw [hl] at hv
    simp [isOkE] at hv
  | ok res =>
    dsimp only
    split
    · split
      · split <;> simp
      · split <;> simp
    · cases he : env.execActions s.step_count res.actions with
      | error e =>
        have hv := h.2.2 s.step_count res.actions
        rw [he] at hv
        simp [isOkE] at hv
      | ok u =>
        dsimp only
        split <;> simp

lemma iterate_no_raise (env : Env) (h : collaboratorsOk env) (s : LoopState) :
    (iterate env s).1 ≠ .raise := by
  unfold iterate
  cases hobs : env.observe (s.step_count + 1) with
  | error e => simp [hobs]
  | ok snap =>
    simp only [hobs]
    split
    · split
      · cases hc : env.cloudAnalyze with
        | none => simp [hc]
        | some cloud =>
          simp only [hc]
          cases hcl : cloud (s.step_count + 1) snap with
          | error e =>
            have hv := h.2.1 cloud (s.step_count + 1) snap hc
            rw [hcl] at hv
            simp [isOkE] at hv
          | ok d =>
            simp only [hcl]
            exact afterStallOut_no_raise env h _ snap
      · simp
    · exact afterStallOut_no_raise env h _ snap

lemma applyLoopGo_no_raise (env : Env) (h : collaboratorsOk env) :
    ∀ (fuel : Nat) (s : LoopState), ∃ v, applyLoopGo env fuel s = .ok v := by
  intro fuel
  induction fuel with
  | zero => intro s; exact ⟨(.Exhausted, s), rfl⟩
  | succ n ih =>
    intro s
    rcases hit : iterate env s with ⟨out, st⟩
    rw [applyLoopGo_succ, hit]
    cases out with
    | exit r => exact ⟨(r, st), rfl⟩
    | raise =>
      have hr := iterate_no_raise env h s
      rw [hit] at hr
      simp at hr
    | next => exact ih st

lemma applyLoopGo_step_le (env : Env) :
    ∀ (fuel : Nat) (s : LoopState) (r : ApplicationResult) (s2 : LoopState),
      applyLoopGo env fuel s = .ok (r, s2) →
      s2.step_count ≤ s.step_count + fuel := by
  intro fuel
  induction fuel with
  | zero =>
    intro s r s2 h
    simp only [applyLoopGo, Except.ok.injEq, Prod.mk.injEq] at h
    rcases h with ⟨-, h2⟩
    subst h2
    omega
  | succ n ih =>
    intro s r s2 h
    unfold applyLoopGo at h
    rcases hit : iterate env s with ⟨out, st⟩
    rw [hit] at h
    have hstep : st.step_count = s.step_count + 1 := by
      have hsc := iterate_step_count env s
      rw [hit] at hsc
      exact hsc
    cases out with
    | exit r0 =>
      simp only [Except.ok.injEq, Prod.mk.injEq] at h
      rcases h with ⟨-, h2⟩
      subst h2
      omega
    | raise => cases h
    | next =>
      have hle := ih st r s2 h
      omega

/-! ## Claim theorems -/

/-- C4: on every iteration that successfully captures a snapshot, if the
hash of the visible text equals the stored fingerprint then the stall
count is incremented by exactly one and the fingerprint is unchanged;
otherwise the stall count is reset to 0 (whatever its prior value) and
the fingerprint is set to the new hash. -/
theorem stall_detection (env : Env) (s : LoopState) (snap : Snapshot)
    (hobs : env.observe (s.step_count + 1) = .ok snap) :
    (iterate env s).2.stall_count =
      (if s.last_hash = some (env.hash snap.text) then s.stall_count + 1 else 0) ∧
    (iterate env s).2.last_hash =
      (if s.last_hash = some (env.hash snap.text) then s.last_hash
       else some (env.hash snap.text)) := by
  rw [iterate_snd_ok env s snap hobs]
  by_cases heq : s.last_hash = some (env.hash snap.text) <;> simp [heq]

/-- Witness for C4: a concrete stalled iteration increments the stall
count from 1 to 2 and keeps the fingerprint. -/
theorem stall_detection_witness :
    (iterate envBenign ⟨3, 1, some 4⟩).2.stall_count = 2 ∧
    (iterate envBenign ⟨3, 1, some 4⟩).2.last_hash = some 4 := by
  have e : envBenign.hash "page" = 4 := rfl
  have h := stall_detection envBenign ⟨3, 1, some 4⟩ ⟨"page"⟩ rfl
  simpa [e] using h

/-- C5: with no cloud model configured, an iteration whose unchanged
fingerprint pushes the stall count to the threshold of 3 terminates the
loop with the `Stalled` exit immediately. The conclusion holds for every
`localAnalyze` behaviour, so the primary model is not consulted on this
evaluation (the concrete witness drives this home with a local model
that would raise if it were called). -/
theorem stalled_without_escalation (env : Env) (fuel : Nat) (s : LoopState)
    (snap : Snapshot)
    (hcloud : env.cloudAnalyze = none)
    (hobs : env.observe (s.step_count + 1) = .ok snap)
    (hfp : s.last_hash = some (env.hash snap.text))
    (hth : 3 ≤ s.stall_count + 1) :
    applyLoopGo env (fuel + 1) s =
      .ok (.Stalled, ⟨s.step_count + 1, s.stall_count + 1, s.last_hash⟩) := by
  unfold applyLoopGo iterate
  simp only [hobs, hfp, hcloud, if_pos hth, if_true, eq_self_iff_true]

/-- Witness for C5: a stalled third unchanged snapshot without a cloud
model stops with `Stalled` even though the local model would raise. -/
theorem stalled_without_escalation_witness :
    applyLoopGo envStallPoisonLocal 8 ⟨2, 2, some 4⟩ =
      .ok (.Stalled, ⟨3, 3, some 4⟩) :=
  stalled_without_escalation envStallPoisonLocal 7 ⟨2, 2, some 4⟩ ⟨"page"⟩
    rfl rfl rfl (by decide)

/-- C6: the loop never runs past `max_steps`: at every successful loop
exit the final step count is at most `max_steps` (the helper lemma
`applyLoopGo_step_le` is the loop invariant form: from any state the
step count grows by at most the remaining fuel, and the loop starts
with fuel `max_steps`). -/
theorem step_count_bounded (env : Env) (r : ApplicationResult)
    (s2 : LoopState) (h : applyLoop env = .ok (r, s2)) :
    s2.step_count ≤ max_steps := by
  have hb := applyLoopGo_step_le env max_steps ⟨0, 0, none⟩ r s2 h
  simpa using hb

/-- Witness for C6 at a concrete completed run. -/
theorem step_count_bounded_witness :
    (⟨1, 0, some 4⟩ : LoopState).step_count ≤ max_steps :=
  step_count_bounded envBenign .Completed ⟨1, 0, some 4⟩ (by decide)

/-- C7: if the snapshot capture raises on iteration `n`, the loop exits
at once through the `Aborted` path: the capture is not retried, no
further iteration runs regardless of the remaining budget, and the
final step count is `n`. -/
theorem observation_failure_aborts (env : Env) (fuel : Nat) (s : LoopState)
    (hobs : env.observe (s.step_count + 1) = .error ()) :
    applyLoopGo env (fuel + 1) s =
      .ok (.Aborted, ⟨s.step_count + 1, s.stall_count, s.last_hash⟩) := by
  unfold applyLoopGo iterate
  simp only [hobs]

/-- Witness for C7, the scenario of the specification: the capture
raises on iteration 2, so the attempt ends `Aborted` with a final step
count of 2. -/
theorem observation_failure_aborts_witness :
    applyLoopGo envObserveFailsAt2 9 ⟨1, 0, some 4⟩ =
      .ok (.Aborted, ⟨2, 0, some 4⟩) :=
  observation_failure_aborts envObserveFailsAt2 8 ⟨1, 0, some 4⟩ rfl

/-- C1, evaluation of the code at the failing input. In
`envEscalationDiscard` the page text never changes, the local model
proposes nothing and the cloud model proposes a click on every call; the
run escalates at iteration 4 yet ends `Exhausted` right there with the
stall count still 3, because the code overwrites the cloud result with
the local result (the click is never executed) and never resets the
stall count. In `envReEscalate` the local model keeps clicking and the
cloud call at iteration 5 is poisoned to raise: the run ends in a raised
exception, proving the loop escalates again on iteration 5, immediately
after the iteration-4 escalation on the same unchanged fingerprint. -/
theorem escalation_result_discarded :
    applyLoop envEscalationDiscard = .ok (.Exhausted, ⟨4, 3, some 9⟩) ∧
    applyLoop envReEscalate = .error () := by
  constructor <;> decide

/-- Counterexample to C2: with a healthy setup phase, a local model
whose first call raises makes `apply_to_job` itself raise (the outer
handler logs and re-raises), instead of returning a terminal result. -/
theorem apply_raises_past_boundary :
    apply_to_job setupAllOk envDeciderRaise = .error () := by decide

/-- C2 as amended: when the page load succeeds and the models and the
action executor do not raise, `apply_to_job` returns normally; snapshot
capture failures in particular are always converted inside the loop and
are never raised (the environment leaves `observe` unconstrained). -/
theorem apply_no_raise_when_collaborators_ok (setup : SetupEnv) (env : Env)
    (hload : setup.loadPageOk = true)
    (hcol : collaboratorsOk env) :
    ∃ v, apply_to_job setup env = .ok v := by
  obtain ⟨v, hv⟩ := applyLoopGo_no_raise env hcol max_steps ⟨0, 0, none⟩
  unfold apply_to_job applyLoop
  rw [hload]
  by_cases hp : setup.profileOk
  · by_cases he : setup.easyApplyFound
    · by_cases hc : setup.clickOk
      · rw [hv]
        simp [hp, he, hc]
      · simp [hp, he, hc]
    · simp [hp, he]
  · simp [hp]

/-- Witness for the amended C2 at a concrete benign run. -/
theorem apply_no_raise_witness :
    ∃ v, apply_to_job setupAllOk envBenign = .ok v := by
  apply apply_no_raise_when_collaborators_ok
  · rfl
  · refine ⟨fun n snap => rfl, ?_, fun n acts => rfl⟩
    intro c n snap hc
    exact absurd hc (by simp [envBenign])

/-- Counterexample to C3: on iteration 1 (so `stepCount <= 3`) the local
model returns an empty action list together with `is_final_step = true`,
and the loop terminates at once with the `Completed` exit instead of
continuing to the next iteration. -/
theorem empty_actions_early_final_terminates :
    applyLoop envEarlyFinal = .ok (.Completed, ⟨1, 0, some 5⟩) := by decide

/-- Shared shape of the analyze phase on an empty action list: with the
local model returning no actions, the region of lines 157-190 completes
or exhausts past step 3 and otherwise finishes or continues on the
final-step flag. -/
lemma afterStallOut_empty (env : Env) (s : LoopState) (snap : Snapshot)
    (res : Decision)
    (hloc : env.localAnalyze s.step_count snap = .ok res)
    (hempty : res.actions = []) :
    afterStallOut env s snap =
      (if 3 < s.step_count then
        (if keywordMatch snap.text then .exit .Completed else .exit .Exhausted)
       else if res.is_final_step then .exit .Completed
       else .next) := by
  unfold afterStallOut
  simp only [hloc, hempty, List.isEmpty_nil, if_true]

/-- An iteration whose snapshot fingerprint differs from the stored one
falls through to the analyze phase with a reset stall count. -/
lemma iterate_changed (env : Env) (s : LoopState) (snap : Snapshot)
    (hobs : env.observe (s.step_count + 1) = .ok snap)
    (hfp : ¬ s.last_hash = some (env.hash snap.text)) :
    iterate env s =
      afterStall env ⟨s.step_count + 1, 0, some (env.hash snap.text)⟩ snap := by
  unfold iterate
  simp only [hobs, if_neg hfp]

/-- An iteration whose unchanged fingerprint reaches the stall threshold
with a configured cloud model whose call returns falls through to the
analyze phase with the incremented stall count kept. -/
lemma iterate_escalated (env : Env) (s : LoopState) (snap : Snapshot)
    (cloud : Nat → Snapshot → Except Unit Decision) (d : Decision)
    (hobs : env.observe (s.step_count + 1) = .ok snap)
    (heq : s.last_hash = some (env.hash snap.text))
    (hth : 3 ≤ s.stall_count + 1)
    (hcloud : env.cloudAnalyze = some cloud)
    (hcl : cloud (s.step_count + 1) snap = .ok d) :
    iterate env s =
      afterStall env ⟨s.step_count + 1, s.stall_count + 1, s.last_hash⟩ snap := by
  unfold iterate
  simp only [hobs, heq, hcloud, hcl, if_pos hth, if_true, eq_self_iff_true]

/-- Loop-level consequence of an empty action list on any iteration that
reaches the analyze phase with state `st`. -/
lemma applyLoopGo_of_afterStall (env : Env) (fuel : Nat) (s st : LoopState)
    (snap : Snapshot) (res : Decision)
    (hiter : iterate env s = afterStall env st snap)
    (hloc : env.localAnalyze st.step_count snap = .ok res)
    (hempty : res.actions = []) :
    applyLoopGo env (fuel + 1) s =
      (if 3 < st.step_count then
        (if keywordMatch snap.text
         then .ok (.Completed, st)
         else .ok (.Exhausted, st))
       else if res.is_final_step
       then .ok (.Completed, st)
       else applyLoopGo env fuel st) := by
  rw [applyLoopGo_succ, hiter]
  unfold afterStall
  rw [afterStallOut_empty env st snap res hloc hempty]
  by_cases h3 : 3 < st.step_count
  · rw [if_pos h3, if_pos h3]
    by_cases hk : keywordMatch snap.text
    · rw [if_pos hk, if_pos hk]
    · rw [if_neg hk, if_neg hk]
  · rw [if_neg h3, if_neg h3]
    by_cases hf : res.is_final_step
    · simp [hf]
    · simp [hf]

/-- C3 as amended: on every iteration in which the local Decider is
invoked and returns an empty action list — that is, every iteration
that reaches the analyze phase, whether because the page fingerprint
changed (state `s2` with stall count 0) or because a threshold stall
escalated through a successful cloud call (state `s2` keeping the
incremented stall count) — the loop terminates when the step count
exceeds 3, with `Completed` on a completion-keyword match and
`Exhausted` otherwise; and when the step count is at most 3 it
terminates with `Completed` if the Decider reported the final step, and
otherwise continues to the next iteration. -/
theorem empty_actions_policy (env : Env) (fuel : Nat) (s : LoopState)
    (snap : Snapshot) (res : Decision) (s2 : LoopState)
    (hobs : env.observe (s.step_count + 1) = .ok snap)
    (hpath :
      (¬ s.last_hash = some (env.hash snap.text) ∧
        s2 = ⟨s.step_count + 1, 0, some (env.hash snap.text)⟩) ∨
      (s.last_hash = some (env.hash snap.text) ∧ 3 ≤ s.stall_count + 1 ∧
        s2 = ⟨s.step_count + 1, s.stall_count + 1, s.last_hash⟩ ∧
        ∃ cloud d, env.cloudAnalyze = some cloud ∧
          cloud (s.step_count + 1) snap = .ok d))
    (hloc : env.localAnalyze (s.step_count + 1) snap = .ok res)
    (hempty : res.actions = []) :
    applyLoopGo env (fuel + 1) s =
      (if 3 < s.step_count + 1 then
        (if keywordMatch snap.text
         then .ok (.Completed, s2)
         else .ok (.Exhausted, s2))
       else if res.is_final_step
       then .ok (.Completed, s2)
       else applyLoopGo env fuel s2) := by
  rcases hpath with ⟨hfp, hs2⟩ | ⟨heq, hth, hs2, cloud, d, hcloud, hcl⟩
  · subst hs2
    exact applyLoopGo_of_afterStall env fuel s _ snap res
      (iterate_changed env s snap hobs hfp) hloc hempty
  · subst hs2
    exact applyLoopGo_of_afterStall env fuel s _ snap res
      (iterate_escalated env s snap cloud d hobs heq hth hcloud hcl) hloc hempty

/-- Witness for the amended C3 on the escalation path: at iteration 4 of
the run of `envEscalationDiscard` (unchanged page, stall threshold
reached, cloud call successful) the local model returns no actions, the
step count exceeds 3, no completion keyword matches, and the loop
terminates with `Exhausted` keeping the incremented stall count. -/
theorem empty_actions_policy_witness :
    applyLoopGo envEscalationDiscard 7 ⟨3, 2, some 9⟩ =
      .ok (.Exhausted, ⟨4, 3, some 9⟩) := by
  have h := empty_actions_policy envEscalationDiscard 6 ⟨3, 2, some 9⟩
    ⟨"same text"⟩ ⟨[], false⟩ ⟨4, 3, some 9⟩ rfl
    (Or.inr ⟨rfl, by decide, rfl,
      ⟨fun _ _ => .ok ⟨[clickAction], false⟩, ⟨[clickAction], false⟩, rfl, rfl⟩⟩)
    rfl rfl
  exact h.trans (by decide)

/-- C8: `CloudLLM.analyze` is total (the embedding returns a plain value,
there is no exception outcome, mirroring the enclosing try/except), and
its value is either a JSON value actually parsed out of the model
response — directly, or from the brace-extracted substring after a
parse failure — or exactly the fallback
`{"actions": [], "is_final_step": false}`; so every failure path (prompt
building, the network call, unparseable response with no extractable or
no parseable JSON object) degrades to the empty-action result. -/
theorem cloud_analyze_total_or_empty (env : CloudEnv) (snap : Snapshot)
    (profile : Option (List (String × String))) (mode : String) :
    CloudLLM.analyze env snap profile mode = emptyActionResult ∨
    ∃ prompt text j,
      (if mode = "recovery" then env.buildRecoveryPrompt snap
       else env.buildFormPrompt snap (profile.getD [])) = .ok prompt ∧
      env.callModel prompt = .ok text ∧
      (env.jsonParse text = some j ∨
        (env.jsonParse text = none ∧
         ∃ sub, env.extract text = some sub ∧ env.jsonParse sub = some j)) ∧
      CloudLLM.analyze env snap profile mode = j := by
  unfold CloudLLM.analyze
  cases hp : (if mode = "recovery" then env.buildRecoveryPrompt snap
              else env.buildFormPrompt snap (profile.getD [])) with
  | error e => left; simp only [hp]
  | ok prompt =>
    simp only [hp]
    cases hc : env.callModel prompt with
    | error e => left; rfl
    | ok text =>
      cases hj : env.jsonParse text with
      | some j =>
        right
        exact ⟨prompt, text, j, rfl, hc, Or.inl hj, by simp only [hc, hj]⟩
      | none =>
        cases hx : env.extract text with
        | some sub =>
          cases hj2 : env.jsonParse sub with
          | some j =>
            right
            exact ⟨prompt, text, j, rfl, hc, Or.inr ⟨hj, sub, hx, hj2⟩,
              by simp only [hc, hj, hx, hj2]⟩
          | none => left; simp only [hc, hj, hx, hj2]
        | none => left; simp only [hc, hj, hx]

/-- The failure statuses of a typed action branch are recorded entries. -/
lemma execTarget_fail (pre : String) (n : Nat) (raises : Nat → Bool)
    (id? : Option String) (h : execTargetFailB pre n raises id? = true) :
    ∃ st, execTarget pre n raises id? = some st ∧
      (st = "error" ∨ st = "element_not_found") := by
  unfold execTargetFailB at h
  unfold execTarget
  cases id? with
  | none => exact ⟨"error", rfl, Or.inl rfl⟩
  | some s =>
    dsimp only at h ⊢
    by_cases hs : strStartsWith s pre = true
    · rw [if_pos hs] at h ⊢
      cases hpi : parseIdx s with
      | none => exact ⟨"error", rfl, Or.inl rfl⟩
      | some i =>
        rw [hpi] at h
        dsimp only at h ⊢
        by_cases hi : i < (n : Int)
        · rw [if_pos hi] at h ⊢
          cases hr : resolveNeg n i with
          | none => exact ⟨"error", rfl, Or.inl rfl⟩
          | some j =>
            rw [hr] at h
            dsimp only at h ⊢
            rw [if_pos h]
            exact ⟨"error", rfl, Or.inl rfl⟩
        · rw [if_neg hi]
          exact ⟨"element_not_found", rfl, Or.inr rfl⟩
    · rw [if_neg hs] at h
      exact absurd h (by decide)

/-- C9: an action that fails (its target element is no longer present
at execution time, or its execution raises, in any of the ways listed at
`execTargetFailB`) gets its failure recorded as an entry of that action
in the returned results list, the remaining actions of the list are
still processed and their entries follow, and the call returns normally
with the top-level status `"completed"`. -/
theorem exec_failure_recorded (env : PageEnv) (a : Action) (rest : List Action)
    (h : execFailureB env a = true) :
    (execute_actions env (a :: rest)).status = "completed" ∧
    ∃ o, execOne env a = some o ∧
      (o.status = "error" ∨ o.status = "element_not_found") ∧
      (execute_actions env (a :: rest)).results =
        o :: (execute_actions env rest).results := by
  unfold execFailureB at h
  refine ⟨rfl, ?_⟩
  by_cases h1 : a.action = some "click"
  · rw [if_pos h1] at h
    obtain ⟨st, hst, hor⟩ := execTarget_fail _ _ _ _ h
    have ho : execOne env a = some ⟨some "click", st, none, none⟩ := by
      unfold execOne
      rw [if_pos h1, hst]
      rfl
    refine ⟨⟨some "click", st, none, none⟩, ho, hor, ?_⟩
    unfold execute_actions
    rw [List.filterMap_cons, ho]
  · rw [if_neg h1] at h
    by_cases h2 : a.action = some "fill"
    · rw [if_pos h2] at h
      obtain ⟨st, hst, hor⟩ := execTarget_fail _ _ _ _ h
      have ho : execOne env a = some ⟨some "fill", st,
          if st = "success" then some (a.value.getD "") else none, none⟩ := by
        unfold execOne
        rw [if_neg h1, if_pos h2, hst]
        rfl
      refine ⟨_, ho, hor, ?_⟩
      unfold execute_actions
      rw [List.filterMap_cons, ho]
    · rw [if_neg h2] at h
      by_cases h3 : a.action = some "upload"
      · rw [if_pos h3] at h
        obtain ⟨st, hst, hor⟩ := execTarget_fail _ _ _ _ h
        have ho : execOne env a = some ⟨some "upload", st, none,
            if st = "success" then some (a.file.getD "") else none⟩ := by
          unfold execOne
          rw [if_neg h1, if_neg h2, if_pos h3, hst]
          rfl
        refine ⟨_, ho, hor, ?_⟩
        unfold execute_actions
        rw [List.filterMap_cons, ho]
      · rw [if_neg h3] at h
        cases h

/-- Witness for C9: with no button left on the page, a click on
`btn_0` is recorded as `element_not_found` and the following fill is
still executed. -/
theorem exec_failure_recorded_witness :
    (execute_actions pageEnvNoButtons [clickAction, fillAction]).status = "completed" ∧
    ∃ o, execOne pageEnvNoButtons clickAction = some o ∧
      (o.status = "error" ∨ o.status = "element_not_found") ∧
      (execute_actions pageEnvNoButtons [clickAction, fillAction]).results =
        o :: (execute_actions pageEnvNoButtons [fillAction]).results :=
  exec_failure_recorded pageEnvNoButtons clickAction [fillAction] (by decide)

/-- C10: `execute_actions` always reports the top-level status
`"completed"` and appends at most one entry per input action, and a
click whose id does not start with `btn_` — or a fill or upload whose id
does not start with `input_` — appends no entry at all, so the results
list of a list containing such an action is strictly shorter than the
action list. -/
theorem executor_skips_unmatched_prefix (env : PageEnv)
    (actions : List Action) (a : Action) (s : String)
    (hid : a.id = some s)
    (hty :
      (a.action = some "click" ∧ strStartsWith s "btn_" = false) ∨
      ((a.action = some "fill" ∨ a.action = some "upload") ∧
        strStartsWith s "input_" = false)) :
    (execute_actions env actions).status = "completed" ∧
    (execute_actions env actions).results.length ≤ actions.length ∧
    execOne env a = none ∧
    (execute_actions env (a :: actions)).results.length <
      (a :: actions).length := by
  have hlen : ∀ (l : List Action),
      (execute_actions env l).results.length ≤ l.length := by
    intro l
    unfold execute_actions
    exact List.length_filterMap_le _ _
  have hskip : execOne env a = none := by
    unfold execOne
    rcases hty with ⟨h1, hpre⟩ | ⟨h12, hpre⟩
    · rw [if_pos h1]
      unfold execTarget
      rw [hid]
      dsimp only
      simp [hpre]
    · rcases h12 with h2 | h3
      · rw [if_neg (by rw [h2]; decide), if_pos h2]
        unfold execTarget
        rw [hid]
        dsimp only
        simp [hpre]
      · rw [if_neg (by rw [h3]; decide), if_neg (by rw [h3]; decide), if_pos h3]
        unfold execTarget
        rw [hid]
        dsimp only
        simp [hpre]
  refine ⟨rfl, hlen actions, hskip, ?_⟩
  have hres : (execute_actions env (a :: actions)).results =
      (execute_actions env actions).results := by
    unfold execute_actions
    rw [List.filterMap_cons, hskip]
  rw [hres]
  exact Nat.lt_succ_of_le (hlen actions)

/-- Witness for C10: the click with id `x_9` is silently dropped and the
results list is shorter than the action list. -/
theorem executor_skips_witness :
    (execute_actions pageEnvReady [clickAction]).status = "completed" ∧
    (execute_actions pageEnvReady [clickAction]).results.length ≤
      [clickAction].length ∧
    execOne pageEnvReady skipClickAction = none ∧
    (execute_actions pageEnvReady
        (skipClickAction :: [clickAction])).results.length <
      (skipClickAction :: [clickAction]).length :=
  executor_skips_unmatched_prefix pageEnvReady [clickAction] skipClickAction
    "x_9" rfl (Or.inl ⟨rfl, by decide⟩)

end JobAgent


